import Mathlib

/-
Verification of the MLB scoreboard data pipeline
(`src/packages/mlb_api/statsapi.py`, `src/packages/mlb_api/endpoints.py`,
`src/code.py`).

The Python code is shallowly embedded: JSON values are an inductive type
(numbers restricted to integers, which is all the modelled payloads carry),
Python dictionaries are association lists with insert-or-replace-in-place
update (CPython dicts preserve insertion order and keep the original key
slot on overwrite), fallible Python expressions run in `Except Unit`
(an exception carries no information the modelled code inspects), and
`time.monotonic()` is an integer-valued clock passed in explicitly.
Network fetches are modelled by an `Option Json` argument: `none` stands
for a transport error or a `json.loads` failure (both are caught by the
same handler in `_make_request`), `some j` for a fetched and parsed body.
-/

set_option maxHeartbeats 1000000

namespace MLB

/-- JSON values as produced by `json.loads`. -/
inductive Json where
  | null
  | bool (b : Bool)
  | num (n : Int)
  | str (s : String)
  | arr (elems : List Json)
  | obj (fields : List (String × Json))

mutual

/-- Structural equality of JSON values (Python `==` on the shapes used as
dict keys by `get_standings`). -/
def Json.beq : Json → Json → Bool
  | .null, .null => true
  | .bool a, .bool b => a == b
  | .num a, .num b => a == b
  | .str a, .str b => a == b
  | .arr a, .arr b => Json.beqList a b
  | .obj a, .obj b => Json.beqObj a b
  | _, _ => false

/-- Elementwise equality of JSON lists. -/
def Json.beqList : List Json → List Json → Bool
  | [], [] => true
  | x :: xs, y :: ys => Json.beq x y && Json.beqList xs ys
  | _, _ => false

/-- Entrywise equality of JSON objects. -/
def Json.beqObj : List (String × Json) → List (String × Json) → Bool
  | [], [] => true
  | (k1, v1) :: xs, (k2, v2) :: ys =>
    k1 == k2 && Json.beq v1 v2 && Json.beqObj xs ys
  | _, _ => false

end

instance : BEq Json := ⟨Json.beq⟩

/-- Python truthiness (`bool(x)`) for the JSON-shaped values the code tests:
`None`, `False`, `0`, `""`, `[]` and `\x7b\x7d` are falsy. -/
def truthy : Json → Bool
  | .null => false
  | .bool b => b
  | .num n => n != 0
  | .str s => !s.isEmpty
  | .arr l => !l.isEmpty
  | .obj kvs => !kvs.isEmpty

/-- Truthiness of an optional value (`None` or a JSON value). -/
def truthyOpt : Option Json → Bool
  | none => false
  | some j => truthy j

/-- Association-list lookup, first match wins (Python dict lookup; the
dictionaries built by the modelled code never carry duplicate keys). -/
def alGet {κ α : Type} [BEq κ] : List (κ × α) → κ → Option α
  | [], _ => none
  | (k1, v) :: t, k => if k1 == k then some v else alGet t k

/-- Association-list membership (`k in d` for a Python dict). -/
def alMem {κ α : Type} [BEq κ] (d : List (κ × α)) (k : κ) : Bool :=
  d.any (fun p => p.1 == k)

/-- Python dict assignment `d[k] = v`: replaces the value in place when the
key exists (keeping the original key and position) and appends otherwise. -/
def alInsert {κ α : Type} [BEq κ] : List (κ × α) → κ → α → List (κ × α)
  | [], k, v => [(k, v)]
  | (k1, v1) :: t, k, v =>
    if k1 == k then (k1, v) :: t else (k1, v1) :: alInsert t k v

/-- Python `d.get(k, dflt)`.  Raises (`AttributeError`) when the receiver is
not a dict, as the source's `.get` chains do on unexpectedly shaped JSON. -/
def pyGet (j : Json) (k : String) (dflt : Json) : Except Unit Json :=
  match j with
  | .obj kvs => .ok ((alGet kvs k).getD dflt)
  | _ => .error ()

/-- Python subscription `d[k]` on a dict: `KeyError` when absent,
`TypeError` when the receiver is not a dict. -/
def pyIndex (j : Json) (k : String) : Except Unit Json :=
  match j with
  | .obj kvs =>
    match alGet kvs k with
    | some v => .ok v
    | none => .error ()
  | _ => .error ()

/-- Check whether the character list `n` occurs contiguously in `h`. -/
def charsInfix (n : List Char) : List Char → Bool
  | [] => n.isEmpty
  | c :: t => n.isPrefixOf (c :: t) || charsInfix n t

/-- Python membership `k in j`: key membership for dicts, element equality
for lists (a string equals only an equal string), substring test for
strings; other receivers raise `TypeError`. -/
def pyIn (k : String) (j : Json) : Except Unit Bool :=
  match j with
  | .obj kvs => .ok (alMem kvs k)
  | .arr l =>
    .ok (l.any (fun e => match e with | .str s => s == k | _ => false))
  | .str s => .ok (charsInfix k.data s.data)
  | _ => .error ()

/-- Python iteration `for x in j`: lists yield their elements, dicts their
keys, strings their characters (as one-character strings); other receivers
raise `TypeError`. -/
def pyIter (j : Json) : Except Unit (List Json) :=
  match j with
  | .arr l => .ok l
  | .obj kvs => .ok (kvs.map (fun p => Json.str p.1))
  | .str s => .ok (s.data.map (fun c => Json.str (String.mk [c])))
  | _ => .error ()

/-- Python `s.lower()`: raises (`AttributeError`) on a non-string receiver.
The modelled fields are ASCII, where `Char.toLower` agrees with Python. -/
def pyLower (j : Json) : Except Unit String :=
  match j with
  | .str s => .ok (String.mk (s.data.map Char.toLower))
  | _ => .error ()

/-- Python `len(j)` for sized values; `TypeError` otherwise. -/
def pyLen (j : Json) : Except Unit Nat :=
  match j with
  | .arr l => .ok l.length
  | .obj kvs => .ok kvs.length
  | .str s => .ok s.length
  | _ => .error ()

mutual

/-- Python `repr` of a JSON-shaped value (string escaping inside containers
is not reproduced; no modelled payload relies on it). -/
def pyRepr : Json → String
  | .null => "None"
  | .bool true => "True"
  | .bool false => "False"
  | .num n => toString n
  | .str s => "\x27" ++ s ++ "\x27"
  | .arr l => "[" ++ String.intercalate ", " (pyReprList l) ++ "]"
  | .obj kvs => "\x7b" ++ String.intercalate ", " (pyReprObj kvs) ++ "\x7d"

/-- `repr` of the elements of a list. -/
def pyReprList : List Json → List String
  | [] => []
  | x :: xs => pyRepr x :: pyReprList xs

/-- `repr` of the entries of a dict. -/
def pyReprObj : List (String × Json) → List String
  | [] => []
  | (k, v) :: xs => ("\x27" ++ k ++ "\x27: " ++ pyRepr v) :: pyReprObj xs

end

/-- Python `str(j)` / f-string interpolation of a JSON-shaped value. -/
def pyStr : Json → String
  | .str s => s
  | j => pyRepr j

/-- Python `s.upper()` on the ASCII team codes the client handles. -/
def pyUpperChar (c : Char) : Char :=
  if 'a' ≤ c ∧ c ≤ 'z' then Char.ofNat (c.toNat - 32) else c

/-- `str.upper` (ASCII part; team codes are ASCII). -/
def pyUpper (s : String) : String := String.mk (s.data.map pyUpperChar)

/-- `ENDPOINTS["BASE_URL"]` from `endpoints.py`. -/
def BASE_URL : String := "https://statsapi.mlb.com/api/v1"

/-- `self.team_ids` built in `StatsAPIClient.__init__`. -/
def team_ids : List (String × Int) :=
  [("BAL", 110), ("BOS", 111), ("NYY", 147), ("TB", 139), ("TOR", 141),
   ("CWS", 145), ("CLE", 114), ("DET", 116), ("KC", 118), ("MIN", 142),
   ("HOU", 117), ("LAA", 108), ("OAK", 133), ("SEA", 136), ("TEX", 140),
   ("ATL", 144), ("MIA", 146), ("NYM", 121), ("PHI", 143), ("WSH", 120),
   ("CHC", 112), ("CIN", 113), ("MIL", 158), ("PIT", 134), ("STL", 138),
   ("ARI", 109), ("COL", 115), ("LAD", 119), ("SD", 135), ("SF", 137)]

/-- `self.team_abbrev = \x7bv: k for k, v in self.team_ids.items()\x7d`:
the reverse mapping, built by insertion in table order. -/
def team_abbrev : List (Int × String) :=
  team_ids.foldl (fun d p => alInsert d p.2 p.1) []

/-- `_get_team_id`: team abbreviation (upper-cased) to numeric id. -/
def _get_team_id (team_abbr : String) : Option Int :=
  alGet team_ids (pyUpper team_abbr)

/-- `_get_team_abbr`: numeric id back to abbreviation. -/
def _get_team_abbr (team_id : Int) : Option String :=
  alGet team_abbrev team_id

/-- `self._get_team_abbr` applied to a raw JSON value (as in the
abbreviation fill-ins): a non-integer key is absent from `team_abbrev`,
so Python's `dict.get` returns `None`. -/
def _get_team_abbr_json (j : Json) : Json :=
  match j with
  | .num n =>
    match alGet team_abbrev n with
    | some s => .str s
    | none => .null
  | _ => .null

/-- The client's mutable cache state (`self.cache`, `self.cache_expiry`),
keyed by full request URL; expiry times are `time.monotonic()` values. -/
structure ClientState where
  cache : List (String × Json)
  cache_expiry : List (String × Int)

/-- The state after `clear_cache()` (also the state at construction). -/
def clear_cache : ClientState := ⟨[], []⟩

/-- URL construction at the top of `_make_request`: base URL plus endpoint,
then `?k1=v1&k2=v2...` when params are given (f-string interpolation of
each key and value). -/
def build_url (endpoint : String) (params : List (String × Json)) : String :=
  let url := BASE_URL ++ endpoint
  if params.isEmpty then url
  else url ++ "?" ++
    String.intercalate "&" (params.map (fun p => p.1 ++ "=" ++ pyStr p.2))

/-- `_make_request`: returns the response (`none` on failure), the updated
cache state, and whether a network fetch was performed.  A cached entry is
served only when present and strictly fresh; a successful fetch caches the
parsed body for 300 seconds, unconditionally overwriting any prior entry. -/
def _make_request (st : ClientState) (now : Int) (url : String)
    (force_refresh : Bool) (fetch : Option Json) :
    Option Json × ClientState × Bool :=
  if !force_refresh && alMem st.cache url
      && decide (now < (alGet st.cache_expiry url).getD 0) then
    (alGet st.cache url, st, false)
  else
    match fetch with
    | some data =>
      (some data,
       ⟨alInsert st.cache url data, alInsert st.cache_expiry url (now + 300)⟩,
       true)
    | none => (none, st, true)

/-- The `hydrate` parameter used by `get_games` and `get_team_game`. -/
def GAMES_HYDRATE : String :=
  "team,linescore,broadcasts(all),game(content(summary)),probablePitcher,flags,seriesStatus"

/-- The conditional pitcher extraction of `_parse_game_data`
(`pitchers[side] = f"..."` guarded by `"probablePitcher" in ...`). -/
def probable_pitcher_entry (game_data : Json) (side : String) (has : Bool)
    (pitchers : List (String × Json)) :
    Except Unit (List (String × Json)) :=
  if has then do
    let t ← pyIndex game_data "teams"
    let s ← pyIndex t side
    let p ← pyIndex s "probablePitcher"
    let nm ← pyGet p "fullName" (.str "")
    pure (alInsert pitchers side (.str (pyStr nm)))
  else pure pitchers

/-- The body of `_parse_game_data` before its `except` handler: every
field extraction defends with `.get` defaults; an unexpectedly shaped
sub-value raises, which the caller's handler turns into `None`. -/
def _parse_game_data_body (game_data : Json) : Except Unit Json := do
  let game_id ← pyGet game_data "gamePk" .null
  let date ← pyGet game_data "officialDate" (.str "")
  let status0 ← pyGet game_data "status" (.obj [])
  let status ← pyGet status0 "abstractGameState" (.str "")
  let status1 ← pyGet game_data "status" (.obj [])
  let detailed_status ← pyGet status1 "detailedState" (.str "")
  let start_time ← pyGet game_data "gameDate" (.str "")
  let teams0 ← pyGet game_data "teams" (.obj [])
  let home0 ← pyGet teams0 "home" (.obj [])
  let home_t ← pyGet home0 "team" (.obj [])
  let home_team ← pyGet home_t "abbreviation" (.str "")
  let teams1 ← pyGet game_data "teams" (.obj [])
  let away0 ← pyGet teams1 "away" (.obj [])
  let away_t ← pyGet away0 "team" (.obj [])
  let away_team ← pyGet away_t "abbreviation" (.str "")
  let home_team_id ← pyGet home_t "id" (.num 0)
  let away_team_id ← pyGet away_t "id" (.num 0)
  let home_score ← pyGet home0 "score" (.num 0)
  let away_score ← pyGet away0 "score" (.num 0)
  let game0 : List (String × Json) :=
    [("game_id", game_id), ("date", date), ("status", status),
     ("detailed_status", detailed_status), ("start_time", start_time),
     ("home_team", home_team), ("away_team", away_team),
     ("home_team_id", home_team_id), ("away_team_id", away_team_id),
     ("home_score", home_score), ("away_score", away_score),
     ("inning", .num 0), ("inning_state", .str ""), ("is_top", .bool false),
     ("outs", .num 0), ("balls", .num 0), ("strikes", .num 0),
     ("on_first", .bool false), ("on_second", .bool false),
     ("on_third", .bool false), ("last_play", .str ""),
     ("series_summary", .str ""), ("home_pitcher", .str ""),
     ("away_pitcher", .str "")]
  -- Fill in team abbreviations if not present
  let game1 :=
    if !truthy home_team && truthy home_team_id then
      alInsert game0 "home_team" (_get_team_abbr_json home_team_id)
    else game0
  let game2 :=
    if !truthy away_team && truthy away_team_id then
      alInsert game1 "away_team" (_get_team_abbr_json away_team_id)
    else game1
  -- Add inning data if available
  let linescore ← pyGet game_data "linescore" (.obj [])
  let inning ← pyGet linescore "currentInning" (.num 0)
  let game3 := alInsert game2 "inning" inning
  let inning_state ← pyGet linescore "inningState" (.str "")
  let game4 := alInsert game3 "inning_state" inning_state
  let lowered ← pyLower inning_state
  let game5 := alInsert game4 "is_top" (.bool (lowered == "top"))
  let outs ← pyGet linescore "outs" (.num 0)
  let game6 := alInsert game5 "outs" outs
  -- Add count data if available
  let balls ← pyGet linescore "balls" (.num 0)
  let game7 := alInsert game6 "balls" balls
  let strikes ← pyGet linescore "strikes" (.num 0)
  let game8 := alInsert game7 "strikes" strikes
  -- Add baserunner data if available
  let offense ← pyGet linescore "offense" (.obj [])
  let on_first ← pyIn "first" offense
  let game9 := alInsert game8 "on_first" (.bool on_first)
  let on_second ← pyIn "second" offense
  let game10 := alInsert game9 "on_second" (.bool on_second)
  let on_third ← pyIn "third" offense
  let game11 := alInsert game10 "on_third" (.bool on_third)
  -- Add series info if available
  let series_status ← pyGet game_data "seriesStatus" (.obj [])
  let series_summary ← pyGet series_status "description" (.str "")
  let game12 := alInsert game11 "series_summary" series_summary
  -- Add pitcher info if available
  let teams2 ← pyGet game_data "teams" (.obj [])
  let homeCheck ← pyGet teams2 "home" (.obj [])
  let hasHomePitcher ← pyIn "probablePitcher" homeCheck
  let pitchers0 : List (String × Json) := []
  let pitchers1 ← probable_pitcher_entry game_data "home" hasHomePitcher
    pitchers0
  let teams3 ← pyGet game_data "teams" (.obj [])
  let awayCheck ← pyGet teams3 "away" (.obj [])
  let hasAwayPitcher ← pyIn "probablePitcher" awayCheck
  let pitchers2 ← probable_pitcher_entry game_data "away" hasAwayPitcher
    pitchers1
  let game13 :=
    alInsert game12 "home_pitcher" ((alGet pitchers2 "home").getD (.str ""))
  let game14 :=
    alInsert game13 "away_pitcher" ((alGet pitchers2 "away").getD (.str ""))
  return Json.obj game14

/-- `_parse_game_data`: the `except` handler converts any raised error to
`None`, so a malformed entry yields `none`. -/
def _parse_game_data (game_data : Json) : Option Json :=
  (_parse_game_data_body game_data).toOption

/-- The inner accumulation of `get_games`: parse each entry, append it
only when the parse produced a (truthy) game. -/
def collect_games (gs : List Json) (acc : List Json) : List Json :=
  match gs with
  | [] => acc
  | g :: rest =>
    match _parse_game_data g with
    | some game =>
      if truthy game then collect_games rest (acc ++ [game])
      else collect_games rest acc
    | none => collect_games rest acc

/-- The date loop of `get_games`; an unexpectedly shaped `dates` entry
raises out of `get_games` (there is no handler around this loop). -/
def get_games_loop (ds : List Json) (acc : List Json) :
    Except Unit (List Json) :=
  match ds with
  | [] => .ok acc
  | d :: rest => do
    let gamesJ ← pyGet d "games" (.arr [])
    let gs ← pyIter gamesJ
    get_games_loop rest (collect_games gs acc)

/-- The response processing of `get_games` (everything after
`_make_request` returns). -/
def get_games_process (response : Option Json) : Except Unit (List Json) := do
  match response with
  | none => pure []
  | some r =>
    if !truthy r then pure []
    else do
      let hasDates ← pyIn "dates" r
      if !hasDates then pure []
      else do
        let datesJ ← pyIndex r "dates"
        let ds ← pyIter datesJ
        get_games_loop ds []

/-- `get_games(date)`: all games for a date (threading the cache state and
reporting whether a network fetch happened). -/
def get_games (st : ClientState) (now : Int) (date : String)
    (fetch : Option Json) : Except Unit (List Json) × ClientState × Bool :=
  let params : List (String × Json) :=
    [("sportId", .num 1), ("date", .str date), ("hydrate", .str GAMES_HYDRATE)]
  let url := build_url "/schedule" params
  let (response, st1, fetched) := _make_request st now url false fetch
  (get_games_process response, st1, fetched)

/-- `get_team_game(team_abbr, date)`: the response loop returns the parse
of the first game entry encountered (even when that parse is `None`). -/
def get_team_game_loop (ds : List Json) : Except Unit (Option Json) :=
  match ds with
  | [] => .ok none
  | d :: rest => do
    let gamesJ ← pyGet d "games" (.arr [])
    let gs ← pyIter gamesJ
    match gs with
    | [] => get_team_game_loop rest
    | g :: _ => .ok (_parse_game_data g)

/-- `get_team_game`: resolves the team code first and performs no request
when it is unknown. -/
def get_team_game (st : ClientState) (now : Int) (team_abbr : String)
    (date : String) (fetch : Option Json) :
    Except Unit (Option Json) × ClientState × Bool :=
  match _get_team_id team_abbr with
  | none => (.ok none, st, false)
  | some team_id =>
    let params : List (String × Json) :=
      [("sportId", .num 1), ("date", .str date), ("teamId", .num team_id),
       ("hydrate", .str GAMES_HYDRATE)]
    let url := build_url "/schedule" params
    let (response, st1, fetched) := _make_request st now url false fetch
    let res : Except Unit (Option Json) := do
      match response with
      | none => pure none
      | some r =>
        if !truthy r then pure none
        else do
          let hasDates ← pyIn "dates" r
          if !hasDates then pure none
          else do
            let datesJ ← pyIndex r "dates"
            let ds ← pyIter datesJ
            get_team_game_loop ds
    (res, st1, fetched)

/-- One row of `get_standings` (the `team_data` dict built for a
`teamRecords` entry, including the abbreviation fill-in). -/
def standings_row (team_record : Json) : Except Unit Json := do
  let team0 ← pyGet team_record "team" (.obj [])
  let name ← pyGet team0 "abbreviation" (.str "")
  let wins ← pyGet team_record "wins" (.num 0)
  let losses ← pyGet team_record "losses" (.num 0)
  let pct ← pyGet team_record "winningPercentage" (.str "")
  let gb ← pyGet team_record "gamesBack" (.str "")
  let streak0 ← pyGet team_record "streak" (.obj [])
  let streak ← pyGet streak0 "streakCode" (.str "")
  -- last_ten: conditional f-string over splitRecords[3]
  let records0 ← pyGet team_record "records" (.obj [])
  let splits ← pyGet records0 "splitRecords" (.arr [])
  let n ← pyLen splits
  let last_ten ←
    if 3 < n then do
      let s3 ←
        match splits with
        | .arr l =>
          match l[3]? with
          | some v => Except.ok v
          | none => Except.error ()
        | _ => Except.error ()
      let w ← pyGet s3 "wins" (.num 0)
      let l ← pyGet s3 "losses" (.num 0)
      pure (Json.str (pyStr w ++ "-" ++ pyStr l))
    else pure (Json.str "0-0")
  let row0 : List (String × Json) :=
    [("name", name), ("wins", wins), ("losses", losses), ("pct", pct),
     ("gb", gb), ("streak", streak), ("last_ten", last_ten)]
  let team1 ← pyGet team_record "team" (.obj [])
  let hasId ← pyIn "id" team1
  if !truthy name && hasId then do
    let t ← pyIndex team_record "team"
    let idj ← pyIndex t "id"
    pure (Json.obj (alInsert row0 "name" (_get_team_abbr_json idj)))
  else pure (Json.obj row0)

/-- The `teamRecords` loop of `get_standings`, in payload order. -/
def standings_rows (trs : List Json) (acc : List Json) :
    Except Unit (List Json) :=
  match trs with
  | [] => .ok acc
  | tr :: rest => do
    let row ← standings_row tr
    standings_rows rest (acc ++ [row])

/-- The `wins` key a built row is sorted by (every built row carries a
`wins` entry; the default covers only unreachable shapes). -/
def winsVal (row : Json) : Int :=
  match row with
  | .obj kvs =>
    match alGet kvs "wins" with
    | some (.num n) => n
    | _ => 0
  | _ => 0

/-- Whether a row's `wins` value is an integer (the only case in which
CPython's sort can compare all keys without a `TypeError`). -/
def winsIsNum (row : Json) : Bool :=
  match row with
  | .obj kvs =>
    match alGet kvs "wins" with
    | some (.num _) => true
    | _ => false
  | _ => false

/-- Stable descending insertion: `x` goes in front of the first element
whose wins do not exceed `x`'s, so earlier input rows stay in front of
equal-wins rows inserted no earlier. -/
def insert_wins_desc (x : Json) : List Json → List Json
  | [] => [x]
  | y :: ys =>
    if winsVal y ≤ winsVal x then x :: y :: ys else y :: insert_wins_desc x ys

/-- `team_records.sort(key=lambda x: x["wins"], reverse=True)`: CPython's
sort is stable, and a stable non-increasing ordering is extensionally
unique, so stable insertion realizes it. -/
def sort_wins_desc : List Json → List Json
  | [] => []
  | x :: xs => insert_wins_desc x (sort_wins_desc xs)

/-- The sort step with CPython's failure mode: comparing a non-integer
`wins` key raises `TypeError` (modelled conservatively: any non-integer
key errors; the theorems only use all-integer payloads). -/
def py_sort_wins_desc (rows : List Json) : Except Unit (List Json) :=
  if rows.all winsIsNum then .ok (sort_wins_desc rows) else .error ()

/-- The `records` loop of `get_standings`: each record contributes its
sorted rows under its division name (`standings[division_name] = ...`,
a dict assignment, so a repeated name overwrites in place). -/
def standings_build (recs : List Json) (acc : List (Json × List Json)) :
    Except Unit (List (Json × List Json)) :=
  match recs with
  | [] => .ok acc
  | rec :: rest => do
    let div0 ← pyGet rec "division" (.obj [])
    let division_name ← pyGet div0 "nameShort" (.str "Unknown")
    let trsJ ← pyGet rec "teamRecords" (.arr [])
    let trs ← pyIter trsJ
    let rows ← standings_rows trs []
    let sorted ← py_sort_wins_desc rows
    standings_build rest (alInsert acc division_name sorted)

/-- `get_standings()`: division name (a JSON value used as dict key) to
sorted team rows; `none` when the response is absent or has no records. -/
def get_standings (st : ClientState) (now : Int) (season : Int)
    (fetch : Option Json) :
    Except Unit (Option (List (Json × List Json))) × ClientState × Bool :=
  let params : List (String × Json) :=
    [("leagueId", .str "103,104"), ("season", .num season),
     ("standingsTypes", .str "regularSeason"),
     ("hydrate", .str "team,division,sport,league")]
  let url := build_url "/standings" params
  let (response, st1, fetched) := _make_request st now url false fetch
  let res : Except Unit (Option (List (Json × List Json))) := do
    match response with
    | none => pure none
    | some r =>
      if !truthy r then pure none
      else do
        let hasRecords ← pyIn "records" r
        if !hasRecords then pure none
        else do
          let recsJ ← pyIndex r "records"
          let recs ← pyIter recsJ
          let table ← standings_build recs []
          pure (some table)
  (res, st1, fetched)

/-- One schedule entry of `get_team_schedule` (the `game` dict built for
a game entry, with abbreviation fill-ins and pitcher names). -/
def sched_entry (game_data : Json) : Except Unit Json := do
  let date ← pyGet game_data "officialDate" (.str "")
  let teams0 ← pyGet game_data "teams" (.obj [])
  let home0 ← pyGet teams0 "home" (.obj [])
  let home_t ← pyGet home0 "team" (.obj [])
  let home_team ← pyGet home_t "abbreviation" (.str "")
  let teams1 ← pyGet game_data "teams" (.obj [])
  let away0 ← pyGet teams1 "away" (.obj [])
  let away_t ← pyGet away0 "team" (.obj [])
  let away_team ← pyGet away_t "abbreviation" (.str "")
  let home_team_id ← pyGet home_t "id" (.num 0)
  let away_team_id ← pyGet away_t "id" (.num 0)
  let status0 ← pyGet game_data "status" (.obj [])
  let status ← pyGet status0 "detailedState" (.str "")
  let timev ← pyGet game_data "gameDate" (.str "")
  let game0 : List (String × Json) :=
    [("date", date), ("home_team", home_team), ("away_team", away_team),
     ("home_team_id", home_team_id), ("away_team_id", away_team_id),
     ("status", status), ("time", timev),
     ("home_pitcher", .str ""), ("away_pitcher", .str "")]
  let game1 :=
    if !truthy home_team && truthy home_team_id then
      alInsert game0 "home_team" (_get_team_abbr_json home_team_id)
    else game0
  let game2 :=
    if !truthy away_team && truthy away_team_id then
      alInsert game1 "away_team" (_get_team_abbr_json away_team_id)
    else game1
  let teams2 ← pyGet game_data "teams" (.obj [])
  let homeCheck ← pyGet teams2 "home" (.obj [])
  let hasHomePitcher ← pyIn "probablePitcher" homeCheck
  let game3 ←
    if hasHomePitcher then do
      let t ← pyIndex game_data "teams"
      let h ← pyIndex t "home"
      let home_pitcher ← pyIndex h "probablePitcher"
      let nm ← pyGet home_pitcher "fullName" (.str "")
      pure (alInsert game2 "home_pitcher" nm)
    else pure game2
  let teams3 ← pyGet game_data "teams" (.obj [])
  let awayCheck ← pyGet teams3 "away" (.obj [])
  let hasAwayPitcher ← pyIn "probablePitcher" awayCheck
  let game4 ←
    if hasAwayPitcher then do
      let t ← pyIndex game_data "teams"
      let a ← pyIndex t "away"
      let away_pitcher ← pyIndex a "probablePitcher"
      let nm ← pyGet away_pitcher "fullName" (.str "")
      pure (alInsert game3 "away_pitcher" nm)
    else pure game3
  return Json.obj game4

/-- The inner game loop of `get_team_schedule`: checks the limit before
building each entry, appends, and breaks once the count reaches it. -/
def sched_inner (gs : List Json) (limit : Nat) (count : Nat)
    (acc : List Json) : Except Unit (List Json × Nat) :=
  match gs with
  | [] => .ok (acc, count)
  | g :: rest =>
    if limit ≤ count then .ok (acc, count)
    else do
      let e ← sched_entry g
      if limit ≤ count + 1 then .ok (acc ++ [e], count + 1)
      else sched_inner rest limit (count + 1) (acc ++ [e])

/-- The date loop of `get_team_schedule`, breaking once the limit is
reached. -/
def sched_outer (ds : List Json) (limit : Nat) (count : Nat)
    (acc : List Json) : Except Unit (List Json × Nat) :=
  match ds with
  | [] => .ok (acc, count)
  | d :: rest => do
    let gamesJ ← pyGet d "games" (.arr [])
    let gs ← pyIter gamesJ
    let (acc1, count1) ← sched_inner gs limit count acc
    if limit ≤ count1 then .ok (acc1, count1)
    else sched_outer rest limit count1 acc1

/-- `get_team_schedule(team_abbr, limit)`: forward-looking schedule for a
team, truncated at `limit`; `none` when the team code is unknown or the
response is absent (`current_date` is the client's fallback date string,
an input of the model). -/
def get_team_schedule (st : ClientState) (now : Int) (team_abbr : String)
    (limit : Nat) (current_date : String) (fetch : Option Json) :
    Except Unit (Option (List Json)) × ClientState × Bool :=
  match _get_team_id team_abbr with
  | none => (.ok none, st, false)
  | some team_id =>
    let params : List (String × Json) :=
      [("sportId", .num 1), ("teamId", .num team_id),
       ("startDate", .str current_date), ("gameType", .str "R"),
       ("hydrate", .str "team,probablePitcher")]
    let url := build_url "/schedule" params
    let (response, st1, fetched) := _make_request st now url false fetch
    let res : Except Unit (Option (List Json)) := do
      match response with
      | none => pure none
      | some r =>
        if !truthy r then pure none
        else do
          let hasDates ← pyIn "dates" r
          if !hasDates then pure none
          else do
            let datesJ ← pyIndex r "dates"
            let ds ← pyIter datesJ
            let (sched, _) ← sched_outer ds limit 0 []
            pure (some sched)
    (res, st1, fetched)

/-
Application loop (`MLBScoreboard` in `src/code.py`).  The loop state is
the fields of `MLBScoreboard` the modelled methods read or write; screen
objects are abstracted by the data they last rendered (their `update`
methods set label text from the data handed to them, and keep it until the
next `update` call).  `display.show(...)` is recorded in `shown`.  The
rotation and refresh intervals are parameters (`getattr(settings, ...)`
with defaults 15.0 and 60).

A load-bearing fact of this source: the NeoPixel status indicator is
never created — its construction is commented out (code.py:119-121) —
while every `self.status_pixel[0] = ...` update and the
`status_neopixel=self.status_pixel` read remain.  Each such access raises
`AttributeError`.  Inside `refresh_data` that access sits in the `try`
body before any fetch (line 318, or line 281 on the network-recreation
path), and the `except` handler performs another one (line 368) *before*
showing the error screen, so the new exception escapes `refresh_data`.
The `run` loop's own handler does the same (line 477) before its error
screen, so an iteration whose refresh raises kills the loop.  The model
keeps these raise points.
-/

/-- What `display.show` last received: one of the rotation screens
(by index into `self.screens`) or the error screen. -/
inductive Shown where
  | screen (i : Nat)
  | error

/-- The loop state: timers, flags, the data snapshot owned by the loop,
and the data each screen last rendered. -/
structure AppState where
  current_screen : Nat
  last_screen_change : Int
  last_data_refresh : Int
  has_data : Bool
  is_initialized : Bool
  num_screens : Nat
  games : List Json
  favorite_game : Option Json
  standings : Option (List (Json × List Json))
  schedule : Option (List Json)
  screen_game : List Json × Option Json
  screen_standings : Option (List (Json × List Json))
  screen_schedule : Option (List Json)
  shown : Shown

/-- How one `refresh_data` call ends in this source: it `returned` a
Boolean (only `False` is reachable), or an exception `raised` out of it
(the `except` handler's own status-pixel update at line 368 re-raises
before the error screen is shown).  Both carry the resulting modelled
state. -/
inductive RefreshResult where
  | returned (b : Bool) (st : AppState)
  | raised (st : AppState)

/-- How one iteration of the `while True` body of `run` ends: the loop
`next` continues with a state, `crashed` (an exception reached the
handler at code.py:475, whose status-pixel update at line 477 raises
again before the error screen, ending `run`), or `reloaded` (serial
`"q"`, `supervisor.reload()`). -/
inductive StepResult where
  | next (st : AppState)
  | crashed (st : AppState)
  | reloaded (st : AppState)

/-- The modelled state an iteration ended in. -/
def step_state : StepResult → AppState
  | .next st => st
  | .crashed st => st
  | .reloaded st => st

/-- Truthiness of the standings snapshot (`None` and an empty dict are
falsy). -/
def truthyStandings : Option (List (Json × List Json)) → Bool
  | none => false
  | some t => !t.isEmpty

/-- Truthiness of a list-valued snapshot (`None` and `[]` are falsy). -/
def truthyList : Option (List Json) → Bool
  | none => false
  | some l => !l.isEmpty

/-- `_update_screens`: each screen is updated only when its slice of the
new snapshot is truthy, otherwise it keeps what it last rendered.  (Kept
as the embedding of the method itself; in this source its only caller,
`refresh_data`, raises before reaching it.) -/
def _update_screens (st : AppState) : AppState :=
  { st with
    screen_game :=
      if st.games.isEmpty then st.screen_game
      else (st.games, st.favorite_game),
    screen_standings :=
      if truthyStandings st.standings then st.standings
      else st.screen_standings,
    screen_schedule :=
      if truthyList st.schedule then st.schedule
      else st.screen_schedule }

/-- `refresh_data` as this source executes it.  `network_ok` is the
truthiness of `self.network`, `wifi_reconnected` the result of
`network_check.ensure_wifi_connection()` on the reconnection path.
With no network and no reconnection it returns `False` early (line 286)
having mutated nothing.  On every other path it raises `AttributeError`
at a `self.status_pixel` access — at line 281 (re-creating the WiFi
manager) or at latest line 318, *before any fetch* — and the `except`
handler raises again at line 368 before the error screen, so the call
never completes: the snapshot assignments (line 333 on), the screen
updates, `has_data := True`, the timer reset and the error-screen display
are all unreachable, and the modelled state is returned untouched.  (The
paths may first re-create `self.mlb_client` / `self.time_util`, fields
outside the model; a network call there raising changes nothing below.) -/
def refresh_data (st : AppState) (network_ok wifi_reconnected : Bool) :
    RefreshResult :=
  if network_ok = false ∧ wifi_reconnected = false then .returned false st
  else .raised st

/-- `rotate_screen`: advance round-robin and show the new screen, unless
there is at most one screen or the app is not initialized. -/
def rotate_screen (st : AppState) (now : Int) : AppState :=
  if st.num_screens ≤ 1 ∨ st.is_initialized = false then st
  else
    let i := (st.current_screen + 1) % st.num_screens
    { st with current_screen := i, shown := Shown.screen i,
              last_screen_change := now }

/-- The iteration after the refresh check: rotate when due, run
animations / display refresh / sleep / housekeeping (which do not touch
the modelled state), then handle one line of serial input — `"r"`
refreshes again (and a raise there crashes the loop the same way),
`"s"` rotates, `"d"` only logs, `"q"` reloads the device. -/
def run_step_after_refresh (st : AppState) (now rotation_speed : Int)
    (network_ok wifi_reconnected : Bool) (serial : Option String) :
    StepResult :=
  let st2 :=
    if st.has_data = true ∧ rotation_speed ≤ now - st.last_screen_change
    then rotate_screen st now else st
  match serial with
  | some s =>
    if s = "r" then
      match refresh_data st2 network_ok wifi_reconnected with
      | .raised st3 => .crashed st3
      | .returned _ st3 => .next st3
    else if s = "s" then .next (rotate_screen st2 now)
    else if s = "q" then .reloaded st2
    else .next st2
  | none => .next st2

/-- One iteration of the `while True` body of `run`: when a refresh is
due (`not self.has_data or` interval elapsed) `refresh_data` runs first,
and if it raises the iteration jumps to the `except` handler, which
itself raises at its status-pixel update (line 477) before showing the
error screen — the rotation and serial phases are never reached and the
loop dies. -/
def run_step (st : AppState) (now : Int)
    (refresh_interval rotation_speed : Int)
    (network_ok wifi_reconnected : Bool) (serial : Option String) :
    StepResult :=
  if st.has_data = false ∨ refresh_interval ≤ now - st.last_data_refresh
  then
    match refresh_data st network_ok wifi_reconnected with
    | .raised st1 => .crashed st1
    | .returned _ st1 =>
      run_step_after_refresh st1 now rotation_speed network_ok
        wifi_reconnected serial
  else
    run_step_after_refresh st now rotation_speed network_ok
      wifi_reconnected serial

/-
Theorems.
-/

/-- Looking up the key just written returns the written value, whatever
was stored before. -/
theorem alGet_alInsert {κ α : Type} [BEq κ] [LawfulBEq κ]
    (d : List (κ × α)) (k : κ) (v : α) : alGet (alInsert d k v) k = some v := by
  induction d with
  | nil => simp [alInsert, alGet]
  | cons p t ih =>
    obtain ⟨k1, v1⟩ := p
    by_cases h : k1 == k
    · simp [alInsert, alGet, h]
    · simp only [alInsert, alGet, h, Bool.false_eq_true, if_false, if_neg]
      exact ih

/-- A successful association-list lookup means the key occurs in the
list. -/
theorem alGet_eq_some_mem {κ α : Type} [BEq κ] [LawfulBEq κ]
    {d : List (κ × α)} {k : κ} {v : α} (h : alGet d k = some v) :
    k ∈ d.map Prod.fst := by
  induction d with
  | nil => simp [alGet] at h
  | cons p t ih =>
    obtain ⟨k1, v1⟩ := p
    by_cases hk : k1 == k
    · simp only [List.map_cons, List.mem_cons]
      exact Or.inl (eq_of_beq hk).symm
    · simp only [alGet, hk, Bool.false_eq_true, if_false] at h
      simp only [List.map_cons, List.mem_cons]
      exact Or.inr (ih h)

/-- The freshness test of `_make_request` (without `force_refresh`): the
key is present and the current monotonic time is strictly below its
expiry. -/
def cache_fresh (st : ClientState) (now : Int) (url : String) : Bool :=
  alMem st.cache url && decide (now < (alGet st.cache_expiry url).getD 0)

/-- C1: inside `_make_request`, a cached value is returned iff an entry
for the URL exists and the current monotonic time is strictly below its
`expires_at` (and then no fetch happens and the state is unchanged); at or
after `expires_at`, or with no entry, a fetch is triggered, and a
successful fetch stores the value with `expires_at = now + 300`,
unconditionally overwriting any prior entry for that key, while a failed
fetch returns `None` and leaves the cache unchanged. -/
theorem c1_cache_semantics (st : ClientState) (now : Int) (url : String)
    (fetch : Option Json) :
    (cache_fresh st now url = true →
      _make_request st now url false fetch = (alGet st.cache url, st, false))
    ∧ (cache_fresh st now url = false →
        (_make_request st now url false fetch).2.2 = true
        ∧ (∀ d, fetch = some d →
            _make_request st now url false fetch =
              (some d,
               ⟨alInsert st.cache url d,
                alInsert st.cache_expiry url (now + 300)⟩, true)
            ∧ alGet (alInsert st.cache url d) url = some d
            ∧ alGet (alInsert st.cache_expiry url (now + 300)) url
                = some (now + 300))
        ∧ (fetch = none →
            _make_request st now url false fetch = (none, st, true))) := by
  constructor
  · intro h
    simp only [_make_request, Bool.not_false, Bool.true_and]
    rw [show (alMem st.cache url
        && decide (now < (alGet st.cache_expiry url).getD 0)) = true from h]
    simp
  · intro h
    simp only [_make_request, Bool.not_false, Bool.true_and]
    rw [show (alMem st.cache url
        && decide (now < (alGet st.cache_expiry url).getD 0)) = false from h]
    refine ⟨?_, ?_, ?_⟩
    · cases fetch <;> simp
    · intro d hd
      subst hd
      exact ⟨rfl, alGet_alInsert _ _ _, alGet_alInsert _ _ _⟩
    · intro hd
      subst hd
      simp

/-- C1 witness: a fresh entry is served from the cache; a stale entry is
refetched and overwritten with expiry `now + 300`. -/
theorem c1_cache_semantics_witness :
    (_make_request ⟨[("u", Json.num 7)], [("u", 10)]⟩ 5 "u" false none
      = (some (Json.num 7), ⟨[("u", Json.num 7)], [("u", 10)]⟩, false))
    ∧ (_make_request ⟨[("u", Json.num 7)], [("u", 10)]⟩ 20 "u" false
        (some (Json.num 9))
      = (some (Json.num 9), ⟨[("u", Json.num 9)], [("u", 320)]⟩, true)) := by
  constructor
  · exact (c1_cache_semantics ⟨[("u", Json.num 7)], [("u", 10)]⟩ 5 "u" none).1
      (by decide)
  · exact (((c1_cache_semantics ⟨[("u", Json.num 7)], [("u", 10)]⟩ 20 "u"
      (some (Json.num 9))).2 (by decide)).2.1 (Json.num 9) rfl).1

/-- C7: an unknown team code makes `get_team_game` and
`get_team_schedule` return `None` without raising and without any network
request, leaving the cache untouched. -/
theorem c7_unknown_team (st : ClientState) (now : Int) (abbr date : String)
    (limit : Nat) (today : String) (fetch : Option Json)
    (h : _get_team_id abbr = none) :
    get_team_game st now abbr date fetch = (.ok none, st, false)
    ∧ get_team_schedule st now abbr limit today fetch
        = (.ok none, st, false) := by
  constructor
  · unfold get_team_game
    rw [h]
  · unfold get_team_schedule
    rw [h]

/-- C7 witness: the unknown code `"ZZZ"`. -/
theorem c7_unknown_team_witness :
    _get_team_id "ZZZ" = none
    ∧ get_team_game ⟨[], []⟩ 0 "ZZZ" "2024-07-04" none
        = (.ok none, ⟨[], []⟩, false) := by
  have h : _get_team_id "ZZZ" = none := by decide
  exact ⟨h, (c7_unknown_team ⟨[], []⟩ 0 "ZZZ" "2024-07-04" 5 "2024-07-04"
    none h).1⟩

/-- C9: the 30 numeric team identifiers are pairwise distinct, and for
every entry of the table, resolving the code with `_get_team_id` and
mapping the identifier back with `_get_team_abbr` returns the original
code: the table and its reverse form a bijection over the 30 entries. -/
theorem c9_team_table_bijection :
    ((team_ids.map Prod.snd).Nodup)
    ∧ ∀ p ∈ team_ids,
        _get_team_id p.1 = some p.2 ∧ _get_team_abbr p.2 = some p.1 := by
  decide

/-- C9 witness: the `"NYY"` entry round-trips. -/
theorem c9_team_table_bijection_witness :
    _get_team_id "NYY" = some 147 ∧ _get_team_abbr 147 = some "NYY" :=
  c9_team_table_bijection.2 ("NYY", 147) (by decide)

/-- Every key of the team table is fixed by `str.upper`. -/
theorem team_ids_keys_upper_fixed :
    ∀ k ∈ team_ids.map Prod.fst, pyUpper k = k := by
  decide

/-- C10: team-code resolution is case-insensitive: when the upper-cased
form of a code is known, `_get_team_id`, `get_team_game` and
`get_team_schedule` behave identically on the original and on the
upper-cased code (same resolved id, hence same request and result). -/
theorem c10_case_insensitive (st : ClientState) (now : Int)
    (abbr date : String) (limit : Nat) (today : String)
    (fetch : Option Json) (tid : Int) (h : _get_team_id abbr = some tid) :
    _get_team_id abbr = _get_team_id (pyUpper abbr)
    ∧ get_team_game st now abbr date fetch
        = get_team_game st now (pyUpper abbr) date fetch
    ∧ get_team_schedule st now abbr limit today fetch
        = get_team_schedule st now (pyUpper abbr) limit today fetch := by
  have hmem : pyUpper abbr ∈ team_ids.map Prod.fst := by
    unfold _get_team_id at h
    exact alGet_eq_some_mem h
  have hfix : pyUpper (pyUpper abbr) = pyUpper abbr :=
    team_ids_keys_upper_fixed _ hmem
  have hid : _get_team_id abbr = _get_team_id (pyUpper abbr) := by
    unfold _get_team_id
    rw [hfix]
  refine ⟨hid, ?_, ?_⟩
  · unfold get_team_game
    rw [hid]
  · unfold get_team_schedule
    rw [hid]

/-- A loop state holding a last-known-good snapshot: `has_data` set, the
Game screen rendered one game, the standings and schedule screens
rendered data.  (In this source `has_data` can never actually be set,
because `refresh_data` never completes; the claims quantify over the
state regardless.) -/
def lkg_state : AppState :=
  { current_screen := 1, last_screen_change := 100, last_data_refresh := 100,
    has_data := true, is_initialized := true, num_screens := 4,
    games := [Json.obj [("game_id", Json.num 1)]],
    favorite_game := none,
    standings := some [(Json.str "AL East", [Json.obj [("name", Json.str "NYY")]])],
    schedule := some [Json.obj [("date", Json.str "2024-07-04")]],
    screen_game := ([Json.obj [("game_id", Json.num 1)]], none),
    screen_standings := some [(Json.str "AL East", [Json.obj [("name", Json.str "NYY")]])],
    screen_schedule := some [Json.obj [("date", Json.str "2024-07-04")]],
    shown := Shown.screen 1 }

/-- C3: the claimed degraded-refresh behaviour cannot occur in this
source.  `self.status_pixel` is never created (its NeoPixel construction
is commented out, code.py:119-121), so with the network present
`refresh_data` raises `AttributeError` before any fetch and its handler
raises again before the error screen: the call never completes and the
modelled state — including the held snapshot and the displayed screen —
comes back untouched; the only completing path returns `False` (network
absent, reconnection failed), also untouched; and a loop iteration whose
refresh is due crashes the whole loop with the state untouched, the
error screen never shown. -/
theorem c3_refresh_crashes :
    refresh_data lkg_state true true = RefreshResult.raised lkg_state
    ∧ refresh_data lkg_state true false = RefreshResult.raised lkg_state
    ∧ refresh_data lkg_state false true = RefreshResult.raised lkg_state
    ∧ refresh_data lkg_state false false
      = RefreshResult.returned false lkg_state
    ∧ run_step { lkg_state with last_data_refresh := 0 } 100 60 15 true true
        none
      = StepResult.crashed { lkg_state with last_data_refresh := 0 }
    ∧ (∀ st nok wok,
        refresh_data st nok wok = RefreshResult.returned false st
        ∨ refresh_data st nok wok = RefreshResult.raised st) := by
  refine ⟨rfl, rfl, rfl, rfl, rfl, ?_⟩
  intro st nok wok
  unfold refresh_data
  by_cases h : nok = false ∧ wok = false
  · rw [if_pos h]
    exact Or.inl rfl
  · rw [if_neg h]
    exact Or.inr rfl

/-- C8 counterexample: an iteration in which the rotation interval has
not elapsed (0 seconds since the last screen change) still rotates to the
next screen when a serial `"s"` command arrives — against the claim that
rotation happens only when the elapsed time reaches the rotation
interval. -/
theorem c8_counterexample :
    run_step lkg_state 100 60 15 true true (some "s")
      = StepResult.next { lkg_state with
          current_screen := 2,
          shown := Shown.screen 2,
          last_screen_change := 100 }
    ∧ lkg_state.current_screen = 1
    ∧ lkg_state.has_data = true
    ∧ (100 - lkg_state.last_screen_change < 15) := by
  refine ⟨?_, rfl, rfl, by decide⟩
  rfl

/-- The rotation index after `rotate_screen`: round-robin advance when
there are at least two screens and the app is initialized. -/
theorem rotate_screen_current (A : AppState) (t : Int) :
    (rotate_screen A t).current_screen =
      if 1 < A.num_screens ∧ A.is_initialized = true
      then (A.current_screen + 1) % A.num_screens
      else A.current_screen := by
  unfold rotate_screen
  by_cases hn : A.num_screens ≤ 1 ∨ A.is_initialized = false
  · rw [if_pos hn, if_neg]
    rintro ⟨hlt, hini⟩
    rcases hn with hn | hn
    · omega
    · rw [hini] at hn
      exact Bool.noConfusion hn
  · rw [if_neg hn]
    push_neg at hn
    have hini : A.is_initialized = true := by
      cases hb : A.is_initialized
      · exact absurd hb hn.2
      · rfl
    show ((A.current_screen + 1) % A.num_screens) = _
    rw [if_pos ⟨by omega, hini⟩]

/-- C8 (amended): `refresh_data` never completes successfully — it
returns `False` early or raises, in both cases leaving the state exactly
unchanged, so it never sets `has_data`, never rotates and never shows the
error screen; an iteration whose due refresh raises aborts the loop with
the state untouched (the handler's own status-pixel update kills it
before any rotation or error screen); an iteration surviving the refresh
phase proceeds on the unchanged state, where without serial input the
rotation index advances round-robin — `(i+1) mod n` — exactly when
`has_data` (at least one successful data pull) is set and the elapsed
time since the last screen change is at least the rotation interval; and
an explicit serial `"s"` command additionally rotates round-robin
regardless of that gate. -/
theorem c8_rotation_gate (st : AppState) (now ri rs : Int)
    (nok wok : Bool) (serial : Option String) :
    (refresh_data st nok wok = RefreshResult.returned false st
      ∨ refresh_data st nok wok = RefreshResult.raised st)
    ∧ ((st.has_data = false ∨ ri ≤ now - st.last_data_refresh) →
        refresh_data st nok wok = RefreshResult.raised st →
        run_step st now ri rs nok wok serial = StepResult.crashed st)
    ∧ (run_step st now ri rs nok wok serial = StepResult.crashed st
        ∨ run_step st now ri rs nok wok serial
          = run_step_after_refresh st now rs nok wok serial)
    ∧ ((step_state (run_step_after_refresh st now rs nok wok
          none)).current_screen =
        if st.has_data = true ∧ rs ≤ now - st.last_screen_change
            ∧ 1 < st.num_screens ∧ st.is_initialized = true
        then (st.current_screen + 1) % st.num_screens
        else st.current_screen)
    ∧ (¬(st.has_data = true ∧ rs ≤ now - st.last_screen_change) →
        (step_state (run_step_after_refresh st now rs nok wok
            (some "s"))).current_screen =
          if 1 < st.num_screens ∧ st.is_initialized = true
          then (st.current_screen + 1) % st.num_screens
          else st.current_screen) := by
  have ha : refresh_data st nok wok = RefreshResult.returned false st
      ∨ refresh_data st nok wok = RefreshResult.raised st := by
    unfold refresh_data
    by_cases h : nok = false ∧ wok = false
    · rw [if_pos h]
      exact Or.inl rfl
    · rw [if_neg h]
      exact Or.inr rfl
  have hb : (st.has_data = false ∨ ri ≤ now - st.last_data_refresh) →
      refresh_data st nok wok = RefreshResult.raised st →
      run_step st now ri rs nok wok serial = StepResult.crashed st := by
    intro hdue hraise
    unfold run_step
    rw [if_pos hdue, hraise]
  refine ⟨ha, hb, ?_, ?_, ?_⟩
  · by_cases hdue : st.has_data = false ∨ ri ≤ now - st.last_data_refresh
    · rcases ha with hret | hraise
      · right
        unfold run_step
        rw [if_pos hdue, hret]
      · exact Or.inl (hb hdue hraise)
    · right
      unfold run_step
      rw [if_neg hdue]
  · have e1 : run_step_after_refresh st now rs nok wok none
        = StepResult.next
            (if st.has_data = true ∧ rs ≤ now - st.last_screen_change
             then rotate_screen st now else st) := rfl
    rw [e1]
    show (if st.has_data = true ∧ rs ≤ now - st.last_screen_change
          then rotate_screen st now else st).current_screen = _
    by_cases hg : st.has_data = true ∧ rs ≤ now - st.last_screen_change
    · rw [if_pos hg, rotate_screen_current]
      by_cases hn : 1 < st.num_screens ∧ st.is_initialized = true
      · rw [if_pos hn, if_pos ⟨hg.1, hg.2, hn.1, hn.2⟩]
      · rw [if_neg hn, if_neg (fun hc => hn ⟨hc.2.2.1, hc.2.2.2⟩)]
    · rw [if_neg hg, if_neg (fun hc => hg ⟨hc.1, hc.2.1⟩)]
  · intro hg
    have e2 : run_step_after_refresh st now rs nok wok (some "s")
        = StepResult.next (rotate_screen st now) := by
      unfold run_step_after_refresh
      rw [if_neg hg]
      rfl
    rw [e2]
    show (rotate_screen st now).current_screen = _
    rw [rotate_screen_current]

/-- C8 witness: an iteration whose due refresh raises crashes the loop
with the state untouched, and an iteration with the rotation gate
unsatisfied but a serial `"s"` command advances from screen 1 to
screen 2. -/
theorem c8_rotation_gate_witness :
    run_step { lkg_state with last_data_refresh := 0 } 100 60 15 true true
        none
      = StepResult.crashed { lkg_state with last_data_refresh := 0 }
    ∧ (step_state (run_step_after_refresh lkg_state 100 15 true true
        (some "s"))).current_screen = 2 := by
  constructor
  · exact (c8_rotation_gate { lkg_state with last_data_refresh := 0 } 100 60
      15 true true none).2.1 (Or.inr (by decide)) rfl
  · have h := (c8_rotation_gate lkg_state 100 60 15 true true
      (some "s")).2.2.2.2 (by decide)
    rw [h]
    decide

/-- The key just written is a member. -/
theorem alMem_alInsert {κ α : Type} [BEq κ] [LawfulBEq κ]
    (d : List (κ × α)) (k : κ) (v : α) : alMem (alInsert d k v) k = true := by
  induction d with
  | nil => simp [alInsert, alMem]
  | cons p t ih =>
    obtain ⟨k1, v1⟩ := p
    by_cases h : k1 == k
    · simp [alInsert, alMem, h]
    · simp only [alInsert, h, Bool.false_eq_true, if_false]
      simp only [alMem, List.any_cons, h, Bool.false_or]
      exact ih

/-- When `_make_request` reports a fetch and the fetch succeeded, the
response is the fetched body and both cache maps are updated for the
URL. -/
theorem make_request_fetched_store (st : ClientState) (now : Int)
    (url : String) (d : Json)
    (h : (_make_request st now url false (some d)).2.2 = true) :
    _make_request st now url false (some d)
      = (some d,
         ⟨alInsert st.cache url d, alInsert st.cache_expiry url (now + 300)⟩,
         true) := by
  unfold _make_request at h ⊢
  by_cases hc : (!false && alMem st.cache url
      && decide (now < (alGet st.cache_expiry url).getD 0)) = true
  · rw [if_pos hc] at h
    exact Bool.noConfusion h
  · rw [if_neg hc]

/-- A present and strictly fresh entry is served from the cache with no
fetch and no state change. -/
theorem make_request_hit (st : ClientState) (now : Int) (url : String)
    (fetch : Option Json) (hmem : alMem st.cache url = true)
    (hfresh : now < (alGet st.cache_expiry url).getD 0) :
    _make_request st now url false fetch = (alGet st.cache url, st, false) := by
  unfold _make_request
  rw [if_pos]
  rw [hmem]
  simp [hfresh]

/-- C4: a second `get_games(date)` call while the cached entry for the
same request URL is still within its TTL window returns output identical
to the first call's, performs no network fetch, and leaves the cache
state unchanged — independent of what a second fetch would have
returned. -/
theorem c4_get_games_idempotent (st : ClientState) (t0 t1 : Int)
    (date : String) (d : Json) (fetch2 : Option Json)
    (httl : t1 < t0 + 300)
    (hfetched : (get_games st t0 date (some d)).2.2 = true) :
    (get_games ((get_games st t0 date (some d)).2.1) t1 date fetch2).1
      = (get_games st t0 date (some d)).1
    ∧ (get_games ((get_games st t0 date (some d)).2.1) t1 date fetch2).2.2
      = false
    ∧ (get_games ((get_games st t0 date (some d)).2.1) t1 date fetch2).2.1
      = (get_games st t0 date (some d)).2.1 := by
  have hm : (_make_request st t0
      (build_url "/schedule"
        [("sportId", .num 1), ("date", .str date),
         ("hydrate", .str GAMES_HYDRATE)]) false (some d)).2.2 = true :=
    hfetched
  have hstore := make_request_fetched_store st t0
    (build_url "/schedule"
      [("sportId", .num 1), ("date", .str date),
       ("hydrate", .str GAMES_HYDRATE)]) d hm
  have hfrsh : t1 < (alGet (alInsert st.cache_expiry
      (build_url "/schedule"
        [("sportId", .num 1), ("date", .str date),
         ("hydrate", .str GAMES_HYDRATE)]) (t0 + 300))
      (build_url "/schedule"
        [("sportId", .num 1), ("date", .str date),
         ("hydrate", .str GAMES_HYDRATE)])).getD 0 := by
    rw [alGet_alInsert]
    exact httl
  have h2nd := make_request_hit
    ⟨alInsert st.cache
      (build_url "/schedule"
        [("sportId", .num 1), ("date", .str date),
         ("hydrate", .str GAMES_HYDRATE)]) d,
     alInsert st.cache_expiry
      (build_url "/schedule"
        [("sportId", .num 1), ("date", .str date),
         ("hydrate", .str GAMES_HYDRATE)]) (t0 + 300)⟩ t1
    (build_url "/schedule"
      [("sportId", .num 1), ("date", .str date),
       ("hydrate", .str GAMES_HYDRATE)]) fetch2
    (alMem_alInsert _ _ _) hfrsh
  refine ⟨?_, ?_, ?_⟩ <;>
    simp only [get_games, hstore, h2nd, alGet_alInsert]

/-- C4 witness: a fresh client, a fetch at time 0, and a second call at
time 100 (inside the 300-second TTL). -/
theorem c4_get_games_idempotent_witness :
    (get_games ((get_games ⟨[], []⟩ 0 "2024-07-04"
          (some (Json.obj [("dates", Json.arr [])]))).2.1) 100 "2024-07-04"
        none).1
      = (get_games ⟨[], []⟩ 0 "2024-07-04"
          (some (Json.obj [("dates", Json.arr [])]))).1
    ∧ (get_games ((get_games ⟨[], []⟩ 0 "2024-07-04"
          (some (Json.obj [("dates", Json.arr [])]))).2.1) 100 "2024-07-04"
        none).2.2 = false := by
  have h := c4_get_games_idempotent ⟨[], []⟩ 0 100 "2024-07-04"
    (Json.obj [("dates", Json.arr [])]) none (by decide) rfl
  exact ⟨h.1, h.2.1⟩

/-- An `Except` bind succeeds exactly when both stages succeed. -/
theorem except_bind_ok {α β : Type} {x : Except Unit α}
    {f : α → Except Unit β} {b : β} (h : (x >>= f) = Except.ok b) :
    ∃ a, x = Except.ok a ∧ f a = Except.ok b := by
  cases x with
  | ok a => exact ⟨a, rfl, h⟩
  | error e => exact Except.noConfusion h

/-- Dict assignment never empties a dict. -/
theorem alInsert_ne_nil {κ α : Type} [BEq κ] (d : List (κ × α)) (k : κ)
    (v : α) : alInsert d k v ≠ [] := by
  cases d with
  | nil => simp [alInsert]
  | cons p t =>
    obtain ⟨k1, v1⟩ := p
    unfold alInsert
    split <;> simp

/-- An object that just received an assignment is truthy. -/
theorem truthy_obj_alInsert (d : List (String × Json)) (k : String)
    (v : Json) : truthy (Json.obj (alInsert d k v)) = true := by
  unfold truthy
  obtain ⟨x, xs, he⟩ : ∃ x xs, alInsert d k v = x :: xs := by
    cases h : alInsert d k v with
    | nil => exact absurd h (alInsert_ne_nil d k v)
    | cons x xs => exact ⟨x, xs, rfl⟩
  rw [he]
  rfl

/-- A successful `_parse_game_data` always yields a non-empty dict, which
is truthy — so `get_games` appends every successfully parsed entry. -/
theorem _parse_game_data_truthy {g game : Json}
    (h : _parse_game_data g = some game) : truthy game = true := by
  unfold _parse_game_data at h
  cases hb : _parse_game_data_body g with
  | error e =>
    rw [hb] at h
    exact Option.noConfusion h
  | ok v =>
    rw [hb] at h
    have hv : v = game := by
      have : Except.toOption (Except.ok v) = some game := h
      injection this
    subst hv
    unfold _parse_game_data_body at hb
    repeat obtain ⟨_, -, hb⟩ := except_bind_ok hb
    cases hb
    exact truthy_obj_alInsert _ _ _

/-- The games list a well-formed `dates` entry carries (used to state the
skip-one theorem). -/
def gamesOf (d : Json) : List Json :=
  match pyGet d "games" (.arr []) with
  | .ok (.arr l) => l
  | _ => []

/-- The per-date accumulation of `get_games` keeps exactly the entries
whose parse succeeds, in order. -/
theorem collect_games_eq (gs acc : List Json) :
    collect_games gs acc = acc ++ gs.filterMap _parse_game_data := by
  induction gs generalizing acc with
  | nil => simp [collect_games]
  | cons g rest ih =>
    unfold collect_games
    cases hp : _parse_game_data g with
    | some game =>
      show (if truthy game = true then collect_games rest (acc ++ [game])
            else collect_games rest acc) = _
      rw [if_pos (_parse_game_data_truthy hp), ih]
      simp [List.filterMap_cons, hp]
    | none =>
      show collect_games rest acc = _
      rw [ih]
      simp [List.filterMap_cons, hp]

/-- The date loop of `get_games` on a payload whose entries carry proper
games lists: no error, and the output is the concatenation of the
per-date surviving parses. -/
theorem get_games_loop_ok (ds : List Json) (acc : List Json)
    (hgs : ∀ d ∈ ds, pyGet d "games" (Json.arr [])
      = Except.ok (Json.arr (gamesOf d))) :
    get_games_loop ds acc
      = Except.ok (acc ++
          (ds.map (fun d => (gamesOf d).filterMap _parse_game_data)).flatten)
    := by
  induction ds generalizing acc with
  | nil => simp [get_games_loop]
  | cons d rest ih =>
    unfold get_games_loop
    rw [hgs d (List.mem_cons_self d rest)]
    show get_games_loop rest (collect_games (gamesOf d) acc) = _
    rw [ih (collect_games (gamesOf d) acc)
      (fun x hx => hgs x (List.mem_cons_of_mem d hx))]
    rw [collect_games_eq]
    simp [List.append_assoc]

/-- C2: on a schedule payload whose outer structure is well-formed (every
`dates` entry carries a games list), `get_games` on a fresh client never
raises and returns exactly the parses of the well-formed game entries in
payload order — each entry whose parse fails is skipped and absent from
the output, and the batch is not aborted. -/
theorem c2_skip_malformed (now : Int) (date : String) (r : Json)
    (ds : List Json)
    (htr : truthy r = true)
    (hin : pyIn "dates" r = Except.ok true)
    (hidx : pyIndex r "dates" = Except.ok (Json.arr ds))
    (hgs : ∀ d ∈ ds, pyGet d "games" (Json.arr [])
      = Except.ok (Json.arr (gamesOf d))) :
    (get_games ⟨[], []⟩ now date (some r)).1
      = Except.ok
          ((ds.map (fun d => (gamesOf d).filterMap _parse_game_data)).flatten)
    := by
  have hmr : (_make_request ⟨[], []⟩ now
      (build_url "/schedule"
        [("sportId", .num 1), ("date", .str date),
         ("hydrate", .str GAMES_HYDRATE)]) false (some r)).1 = some r := rfl
  show get_games_process (_make_request ⟨[], []⟩ now
      (build_url "/schedule"
        [("sportId", .num 1), ("date", .str date),
         ("hydrate", .str GAMES_HYDRATE)]) false (some r)).1 = _
  rw [hmr]
  unfold get_games_process
  show (if (!truthy r) = true then pure [] else do
    let hasDates ← pyIn "dates" r
    if (!hasDates) = true then pure []
    else do
      let datesJ ← pyIndex r "dates"
      let dsx ← pyIter datesJ
      get_games_loop dsx []) = _
  rw [htr]
  show (do
    let hasDates ← pyIn "dates" r
    if (!hasDates) = true then pure []
    else do
      let datesJ ← pyIndex r "dates"
      let dsx ← pyIter datesJ
      get_games_loop dsx []) = _
  rw [hin]
  show (do
    let datesJ ← pyIndex r "dates"
    let dsx ← pyIter datesJ
    get_games_loop dsx []) = _
  rw [hidx]
  show get_games_loop ds [] = _
  rw [get_games_loop_ok ds [] hgs]
  simp

/-- A well-formed game entry of the witness payload. -/
def c2_good1 : Json := Json.obj [("gamePk", Json.num 1)]

/-- A malformed game entry (its parse raises: a string has no `.get`). -/
def c2_bad : Json := Json.str "malformed"

/-- A second well-formed game entry. -/
def c2_good2 : Json := Json.obj [("gamePk", Json.num 2)]

/-- The single `dates` entry of the witness payload. -/
def c2_date_entry : Json :=
  Json.obj [("games", Json.arr [c2_good1, c2_bad, c2_good2])]

/-- The witness schedule payload: one date, three games, the middle one
malformed. -/
def c2_payload : Json := Json.obj [("dates", Json.arr [c2_date_entry])]

/-- C2 witness: on a payload with two well-formed entries around one
malformed entry, `get_games` returns exactly the two parses, in order. -/
theorem c2_skip_malformed_witness :
    (get_games ⟨[], []⟩ 0 "2024-04-01" (some c2_payload)).1
      = Except.ok (([c2_date_entry].map
          (fun d => (gamesOf d).filterMap _parse_game_data)).flatten)
    ∧ _parse_game_data c2_bad = none
    ∧ (([c2_date_entry].map
          (fun d => (gamesOf d).filterMap _parse_game_data)).flatten).length
      = 2 := by
  refine ⟨c2_skip_malformed 0 "2024-04-01" c2_payload [c2_date_entry]
    rfl rfl rfl ?_, rfl, rfl⟩
  intro d hd
  simp only [List.mem_singleton] at hd
  subst hd
  rfl

/-- The inner game loop of `get_team_schedule` stops at the limit: when
it completes without raising, the final count is the smaller of the limit
and the number of entries offered, and the accumulator grew by exactly
the count increase. -/
theorem sched_inner_ok (gs : List Json) (limit : Nat) :
    ∀ (count : Nat) (acc acc1 : List Json) (count1 : Nat),
    count ≤ limit →
    sched_inner gs limit count acc = Except.ok (acc1, count1) →
    count1 = min limit (count + gs.length)
    ∧ acc1.length = acc.length + (count1 - count)
    ∧ count ≤ count1 ∧ count1 ≤ limit := by
  induction gs with
  | nil =>
    intro count acc acc1 count1 hcle h
    unfold sched_inner at h
    injection h with h
    injection h with h1 h2
    subst h1
    subst h2
    refine ⟨by simp only [List.length_nil]; omega, by omega, by omega, hcle⟩
  | cons g rest ih =>
    intro count acc acc1 count1 hcle h
    unfold sched_inner at h
    by_cases hlim : limit ≤ count
    · rw [if_pos hlim] at h
      injection h with h
      injection h with h1 h2
      subst h1
      subst h2
      simp only [List.length_cons]
      refine ⟨by omega, by omega, by omega, hcle⟩
    · rw [if_neg hlim] at h
      obtain ⟨e, -, h⟩ := except_bind_ok h
      by_cases hlim1 : limit ≤ count + 1
      · rw [if_pos hlim1] at h
        injection h with h
        injection h with h1 h2
        subst h1
        subst h2
        simp only [List.length_append, List.length_cons, List.length_nil]
        refine ⟨by omega, by omega, by omega, by omega⟩
      · rw [if_neg hlim1] at h
        obtain ⟨h1, h2, h3, h4⟩ := ih (count + 1) (acc ++ [e]) acc1 count1
          (by omega) h
        simp only [List.length_append, List.length_cons, List.length_nil]
          at h2
        refine ⟨by simp only [List.length_cons]; omega, by omega, by omega,
          h4⟩

/-- The date loop of `get_team_schedule` (over well-shaped dates): when it
completes without raising, the final count is the smaller of the limit
and the total number of game entries across all dates. -/
theorem sched_outer_ok (ds : List Json) (limit : Nat)
    (hgs : ∀ d ∈ ds, pyGet d "games" (Json.arr [])
      = Except.ok (Json.arr (gamesOf d))) :
    ∀ (count : Nat) (acc acc1 : List Json) (count1 : Nat),
    count ≤ limit →
    sched_outer ds limit count acc = Except.ok (acc1, count1) →
    count1 = min limit (count + (ds.map (fun d => (gamesOf d).length)).sum)
    ∧ acc1.length = acc.length + (count1 - count)
    ∧ count ≤ count1 ∧ count1 ≤ limit := by
  induction ds with
  | nil =>
    intro count acc acc1 count1 hcle h
    unfold sched_outer at h
    injection h with h
    injection h with h1 h2
    subst h1
    subst h2
    refine ⟨by simp; omega, by omega, by omega, hcle⟩
  | cons d rest ih =>
    intro count acc acc1 count1 hcle h
    unfold sched_outer at h
    rw [hgs d (List.mem_cons_self d rest)] at h
    replace h : (do
        let p ← sched_inner (gamesOf d) limit count acc
        if limit ≤ p.2 then Except.ok (p.1, p.2)
        else sched_outer rest limit p.2 p.1) = Except.ok (acc1, count1) := h
    obtain ⟨p, hp, h⟩ := except_bind_ok h
    obtain ⟨a1, c1⟩ := p
    obtain ⟨hi1, hi2, hi3, hi4⟩ :=
      sched_inner_ok (gamesOf d) limit count acc a1 c1 hcle hp
    by_cases hlim : limit ≤ c1
    · rw [if_pos hlim] at h
      injection h with h
      injection h with h1 h2
      subst h1
      subst h2
      simp only [List.map_cons, List.sum_cons]
      refine ⟨by omega, by omega, by omega, hi4⟩
    · rw [if_neg hlim] at h
      obtain ⟨h1, h2, h3, h4⟩ := ih
        (fun x hx => hgs x (List.mem_cons_of_mem d hx)) c1 a1 acc1 count1
        (by omega) h
      simp only [List.map_cons, List.sum_cons]
      refine ⟨by omega, by omega, by omega, h4⟩

/-- C5: for a known team code and any limit, when `get_team_schedule`
returns a schedule on a fresh client, its length is the minimum of the
limit and the total number of game entries across the response's dates —
never more than the limit, and fewer only when the upstream response
carries fewer. -/
theorem c5_schedule_limit (now : Int) (team_abbr : String) (limit : Nat)
    (today : String) (r : Json) (ds : List Json) (tid : Int)
    (sched : List Json)
    (hteam : _get_team_id team_abbr = some tid)
    (htr : truthy r = true)
    (hin : pyIn "dates" r = Except.ok true)
    (hidx : pyIndex r "dates" = Except.ok (Json.arr ds))
    (hgs : ∀ d ∈ ds, pyGet d "games" (Json.arr [])
      = Except.ok (Json.arr (gamesOf d)))
    (hok : (get_team_schedule ⟨[], []⟩ now team_abbr limit today
        (some r)).1 = Except.ok (some sched)) :
    sched.length = min limit ((ds.map (fun d => (gamesOf d).length)).sum)
    := by
  unfold get_team_schedule at hok
  rw [hteam] at hok
  replace hok : (if (!truthy r) = true then pure none else do
      let hasDates ← pyIn "dates" r
      if (!hasDates) = true then pure none
      else do
        let datesJ ← pyIndex r "dates"
        let dsx ← pyIter datesJ
        let p ← sched_outer dsx limit 0 []
        pure (some p.1)) = Except.ok (some sched) := hok
  rw [htr] at hok
  replace hok : (do
      let hasDates ← pyIn "dates" r
      if (!hasDates) = true then pure none
      else do
        let datesJ ← pyIndex r "dates"
        let dsx ← pyIter datesJ
        let p ← sched_outer dsx limit 0 []
        pure (some p.1)) = Except.ok (some sched) := hok
  rw [hin] at hok
  replace hok : (do
      let datesJ ← pyIndex r "dates"
      let dsx ← pyIter datesJ
      let p ← sched_outer dsx limit 0 []
      pure (some p.1)) = Except.ok (some sched) := hok
  rw [hidx] at hok
  replace hok : (do
      let p ← sched_outer ds limit 0 []
      pure (some p.1)) = Except.ok (some sched) := hok
  obtain ⟨p, hp, hok⟩ := except_bind_ok hok
  obtain ⟨a1, c1⟩ := p
  have ha : a1 = sched := by
    replace hok : Except.ok (some a1) = Except.ok (some sched) := hok
    injection hok with hok
    injection hok
  subst ha
  obtain ⟨h1, h2, -, -⟩ :=
    sched_outer_ok ds limit hgs 0 [] a1 c1 (Nat.zero_le limit) hp
  simp only [List.length_nil] at h2
  omega
theorem c10_case_insensitive_witness :
    _get_team_id "nyy" = some 147
    ∧ get_team_game ⟨[], []⟩ 0 "nyy" "2024-07-04" none
        = get_team_game ⟨[], []⟩ 0 (pyUpper "nyy") "2024-07-04" none := by
  have h : _get_team_id "nyy" = some 147 := by decide
  exact ⟨h, (c10_case_insensitive ⟨[], []⟩ 0 "nyy" "2024-07-04" 5
    "2024-07-04" none 147 h).2.1⟩

/-- The single `dates` entry of the C5 witness payload: three empty game
objects (every field defaults). -/
def c5_dates_entry : Json :=
  Json.obj [("games", Json.arr [Json.obj [], Json.obj [], Json.obj []])]

/-- The C5 witness payload. -/
def c5_payload : Json := Json.obj [("dates", Json.arr [c5_dates_entry])]

/-- The schedule entry built from an empty game object. -/
def c5_entry : Json :=
  Json.obj [("date", Json.str ""), ("home_team", Json.str ""),
    ("away_team", Json.str ""), ("home_team_id", Json.num 0),
    ("away_team_id", Json.num 0), ("status", Json.str ""),
    ("time", Json.str ""), ("home_pitcher", Json.str ""),
    ("away_pitcher", Json.str "")]

/-- C5 witness: a known team, limit 2, and an upstream response with 3
entries: exactly `min 2 3 = 2` entries come back. -/
theorem c5_schedule_limit_witness :
    (get_team_schedule ⟨[], []⟩ 0 "NYY" 2 "2024-07-04"
        (some c5_payload)).1 = Except.ok (some [c5_entry, c5_entry])
    ∧ [c5_entry, c5_entry].length
      = min 2 (([c5_dates_entry].map (fun d => (gamesOf d).length)).sum)
    := by
  have hok : (get_team_schedule ⟨[], []⟩ 0 "NYY" 2 "2024-07-04"
      (some c5_payload)).1 = Except.ok (some [c5_entry, c5_entry]) := rfl
  refine ⟨hok, c5_schedule_limit 0 "NYY" 2 "2024-07-04" c5_payload
    [c5_dates_entry] 147 [c5_entry, c5_entry] rfl rfl rfl rfl ?_ hok⟩
  intro d hd
  simp only [List.mem_singleton] at hd
  subst hd
  rfl

/-- Membership in the stable descending insertion. -/
theorem mem_insert_wins_desc {z x : Json} {l : List Json}
    (h : z ∈ insert_wins_desc x l) : z = x ∨ z ∈ l := by
  induction l with
  | nil =>
    simp only [insert_wins_desc, List.mem_singleton] at h
    exact Or.inl h
  | cons y ys ih =>
    unfold insert_wins_desc at h
    by_cases hc : winsVal y ≤ winsVal x
    · rw [if_pos hc] at h
      rcases List.mem_cons.mp h with h | h
      · exact Or.inl h
      · exact Or.inr h
    · rw [if_neg hc] at h
      rcases List.mem_cons.mp h with h | h
      · exact Or.inr (h ▸ List.mem_cons_self y ys)
      · rcases ih h with h | h
        · exact Or.inl h
        · exact Or.inr (List.mem_cons_of_mem y h)

/-- Stable descending insertion preserves the non-increasing-wins
invariant. -/
theorem insert_wins_desc_sorted (x : Json) (l : List Json)
    (h : l.Pairwise (fun a b => winsVal b ≤ winsVal a)) :
    (insert_wins_desc x l).Pairwise (fun a b => winsVal b ≤ winsVal a) := by
  induction l with
  | nil => simp [insert_wins_desc]
  | cons y ys ih =>
    rcases List.pairwise_cons.mp h with ⟨hy, hys⟩
    unfold insert_wins_desc
    by_cases hc : winsVal y ≤ winsVal x
    · rw [if_pos hc]
      refine List.pairwise_cons.mpr ⟨?_, h⟩
      intro z hz
      rcases List.mem_cons.mp hz with hz | hz
      · exact hz ▸ hc
      · exact le_trans (hy z hz) hc
    · rw [if_neg hc]
      refine List.pairwise_cons.mpr ⟨?_, ih hys⟩
      intro z hz
      rcases mem_insert_wins_desc hz with hz | hz
      · exact hz ▸ le_of_not_le hc
      · exact hy z hz

/-- The result of the stable insertion sort is non-increasing in wins. -/
theorem sort_wins_desc_sorted (l : List Json) :
    (sort_wins_desc l).Pairwise (fun a b => winsVal b ≤ winsVal a) := by
  induction l with
  | nil => simp [sort_wins_desc]
  | cons x xs ih => exact insert_wins_desc_sorted x (sort_wins_desc xs) ih

/-- Filtering one wins value through the stable insertion: an inserted
element with that value lands in front of the filter (everything it
jumped over has strictly larger wins), and one with a different value
leaves the filter unchanged. -/
theorem filter_insert_wins_desc (x : Json) (l : List Json) (w : Int) :
    (insert_wins_desc x l).filter (fun r => winsVal r == w)
      = if (winsVal x == w) = true
        then x :: l.filter (fun r => winsVal r == w)
        else l.filter (fun r => winsVal r == w) := by
  induction l with
  | nil =>
    cases hx : (winsVal x == w) with
    | true => simp [insert_wins_desc, List.filter_cons, hx]
    | false => simp [insert_wins_desc, List.filter_cons, hx]
  | cons y ys ih =>
    unfold insert_wins_desc
    by_cases hc : winsVal y ≤ winsVal x
    · rw [if_pos hc]
      cases hx : (winsVal x == w) with
      | true => simp [List.filter_cons, hx]
      | false => simp [List.filter_cons, hx]
    · rw [if_neg hc]
      cases hy : (winsVal y == w) with
      | true =>
        have hxw : (winsVal x == w) = false := by
          have hyw : winsVal y = w := beq_iff_eq.mp hy
          have hlt : winsVal x < winsVal y := lt_of_not_le hc
          exact beq_eq_false_iff_ne.mpr (by omega)
        simp [List.filter_cons, hy, hxw, ih]
      | false =>
        simp only [List.filter_cons, hy, if_false, Bool.false_eq_true, ih]

/-- The stable insertion sort preserves, for every wins value, the
relative order of the rows carrying that value. -/
theorem filter_sort_wins_desc (l : List Json) (w : Int) :
    (sort_wins_desc l).filter (fun r => winsVal r == w)
      = l.filter (fun r => winsVal r == w) := by
  induction l with
  | nil => rfl
  | cons x xs ih =>
    show (insert_wins_desc x (sort_wins_desc xs)).filter _ = _
    rw [filter_insert_wins_desc]
    cases hx : (winsVal x == w) with
    | true => simp [List.filter_cons, hx, ih]
    | false => simp [List.filter_cons, hx, ih]

/-- A successful sort step is exactly the stable insertion sort. -/
theorem py_sort_ok {rows sorted : List Json}
    (h : py_sort_wins_desc rows = Except.ok sorted) :
    sorted = sort_wins_desc rows := by
  unfold py_sort_wins_desc at h
  by_cases hall : rows.all winsIsNum = true
  · rw [if_pos hall] at h
    injection h with h
    exact h.symm
  · rw [if_neg hall] at h
    exact Except.noConfusion h

/-- The rows `get_standings` builds for one `records` entry, in payload
order (the `teamRecords` loop before the sort). -/
def record_rows (rec : Json) : Except Unit (List Json) := do
  let trsJ ← pyGet rec "teamRecords" (.arr [])
  let trs ← pyIter trsJ
  standings_rows trs []

/-- A value stored by a dict assignment is the inserted value or was
already present. -/
theorem mem_alInsert {κ α : Type} [BEq κ] {e : κ × α} {d : List (κ × α)}
    {k : κ} {v : α} (h : e ∈ alInsert d k v) : e.2 = v ∨ e ∈ d := by
  induction d with
  | nil =>
    simp only [alInsert, List.mem_singleton] at h
    exact Or.inl (by rw [h])
  | cons p t ih =>
    obtain ⟨k1, v1⟩ := p
    unfold alInsert at h
    by_cases hk : k1 == k
    · rw [if_pos hk] at h
      rcases List.mem_cons.mp h with h | h
      · exact Or.inl (by rw [h])
      · exact Or.inr (List.mem_cons_of_mem _ h)
    · rw [if_neg hk] at h
      rcases List.mem_cons.mp h with h | h
      · exact Or.inr (h ▸ List.mem_cons_self _ _)
      · rcases ih h with h | h
        · exact Or.inl h
        · exact Or.inr (List.mem_cons_of_mem _ h)

/-- Every division stored by the `records` loop of `get_standings` came
from the initial accumulator or is the sorted row list of some record of
the payload. -/
theorem standings_build_mem (recs : List Json) :
    ∀ (acc table : List (Json × List Json)),
    standings_build recs acc = Except.ok table →
    ∀ e ∈ table, e ∈ acc
      ∨ ∃ rec ∈ recs, ∃ rows, record_rows rec = Except.ok rows
          ∧ py_sort_wins_desc rows = Except.ok e.2 := by
  induction recs with
  | nil =>
    intro acc table h e he
    unfold standings_build at h
    injection h with h
    exact Or.inl (h ▸ he)
  | cons rec rest ih =>
    intro acc table h e he
    unfold standings_build at h
    obtain ⟨div0, -, h⟩ := except_bind_ok h
    obtain ⟨dname, -, h⟩ := except_bind_ok h
    obtain ⟨trsJ, htrsJ, h⟩ := except_bind_ok h
    obtain ⟨trs, htrs, h⟩ := except_bind_ok h
    obtain ⟨rows, hrows, h⟩ := except_bind_ok h
    obtain ⟨sorted, hsorted, h⟩ := except_bind_ok h
    rcases ih (alInsert acc dname sorted) table h e he with hmem | hmem
    · rcases mem_alInsert hmem with hv | hv
      · refine Or.inr ⟨rec, List.mem_cons_self rec rest, rows, ?_, ?_⟩
        · unfold record_rows
          rw [htrsJ]
          show (do
            let trs2 ← pyIter trsJ
            standings_rows trs2 []) = Except.ok rows
          rw [htrs]
          exact hrows
        · rw [hv]
          exact hsorted
      · exact Or.inl hv
    · obtain ⟨r2, hr2, rows2, h1, h2⟩ := hmem
      exact Or.inr ⟨r2, List.mem_cons_of_mem rec hr2, rows2, h1, h2⟩

/-- C6: for every standings table `get_standings` returns on a fresh
client, each division's rows are sorted by wins in non-increasing order,
and they are the stable descending sort of the rows built from some
record of the payload in payload order — rows with equal wins keep their
relative payload order (the filter at every wins value is unchanged by
the sort). -/
theorem c6_standings_sorted (now season : Int) (r : Json)
    (recs : List Json) (table : List (Json × List Json))
    (htr : truthy r = true)
    (hin : pyIn "records" r = Except.ok true)
    (hidx : pyIndex r "records" = Except.ok (Json.arr recs))
    (hok : (get_standings ⟨[], []⟩ now season (some r)).1
      = Except.ok (some table)) :
    ∀ e ∈ table,
      e.2.Pairwise (fun a b => winsVal b ≤ winsVal a)
      ∧ ∃ rec ∈ recs, ∃ rows, record_rows rec = Except.ok rows
          ∧ e.2 = sort_wins_desc rows
          ∧ ∀ w : Int, e.2.filter (fun q => winsVal q == w)
              = rows.filter (fun q => winsVal q == w) := by
  replace hok : (if (!truthy r) = true then pure none else do
      let hasRecords ← pyIn "records" r
      if (!hasRecords) = true then pure none
      else do
        let recsJ ← pyIndex r "records"
        let recsx ← pyIter recsJ
        let t ← standings_build recsx []
        pure (some t)) = Except.ok (some table) := hok
  rw [htr] at hok
  replace hok : (do
      let hasRecords ← pyIn "records" r
      if (!hasRecords) = true then pure none
      else do
        let recsJ ← pyIndex r "records"
        let recsx ← pyIter recsJ
        let t ← standings_build recsx []
        pure (some t)) = Except.ok (some table) := hok
  rw [hin] at hok
  replace hok : (do
      let recsJ ← pyIndex r "records"
      let recsx ← pyIter recsJ
      let t ← standings_build recsx []
      pure (some t)) = Except.ok (some table) := hok
  rw [hidx] at hok
  replace hok : (do
      let t ← standings_build recs []
      pure (some t)) = Except.ok (some table) := hok
  obtain ⟨t, ht, hok⟩ := except_bind_ok hok
  have htt : t = table := by
    replace hok : Except.ok (some t) = Except.ok (some table) := hok
    injection hok with hok
    injection hok
  rw [htt] at ht
  intro e he
  rcases standings_build_mem recs [] table ht e he with hmem | hmem
  · exact absurd hmem (List.not_mem_nil e)
  · obtain ⟨rec, hrec, rows, hrows, hsort⟩ := hmem
    have hs : e.2 = sort_wins_desc rows := py_sort_ok hsort
    refine ⟨hs ▸ sort_wins_desc_sorted rows, rec, hrec, rows, hrows, hs, ?_⟩
    intro w
    rw [hs, filter_sort_wins_desc]

/-- A `teamRecords` entry of the C6 witness payload. -/
def c6_team (abbr : String) (wins : Int) : Json :=
  Json.obj [("team", Json.obj [("abbreviation", Json.str abbr)]),
    ("wins", Json.num wins)]

/-- The row `get_standings` builds from such an entry. -/
def c6_row (abbr : String) (wins : Int) : Json :=
  Json.obj [("name", Json.str abbr), ("wins", Json.num wins),
    ("losses", Json.num 0), ("pct", Json.str ""), ("gb", Json.str ""),
    ("streak", Json.str ""), ("last_ten", Json.str "0-0")]

/-- The single record of the C6 witness payload: wins 5, 9, 5 — the two
tied teams arrive in the order AAA, CCC. -/
def c6_record : Json :=
  Json.obj [("division", Json.obj [("nameShort", Json.str "AL East")]),
    ("teamRecords", Json.arr
      [c6_team "AAA" 5, c6_team "BBB" 9, c6_team "CCC" 5])]

/-- The C6 witness payload. -/
def c6_payload : Json := Json.obj [("records", Json.arr [c6_record])]

/-- C6 witness: the division comes back ordered 9, 5, 5 with the two
5-win rows in their payload order (AAA before CCC). -/
theorem c6_standings_sorted_witness :
    (get_standings ⟨[], []⟩ 0 2024 (some c6_payload)).1
      = Except.ok (some [(Json.str "AL East",
          [c6_row "BBB" 9, c6_row "AAA" 5, c6_row "CCC" 5])])
    ∧ ([c6_row "BBB" 9, c6_row "AAA" 5, c6_row "CCC" 5]).Pairwise
        (fun a b => winsVal b ≤ winsVal a)
    ∧ ([c6_row "BBB" 9, c6_row "AAA" 5, c6_row "CCC" 5]).filter
        (fun q => winsVal q == 5)
      = [c6_row "AAA" 5, c6_row "CCC" 5] := by
  have hok : (get_standings ⟨[], []⟩ 0 2024 (some c6_payload)).1
      = Except.ok (some [(Json.str "AL East",
          [c6_row "BBB" 9, c6_row "AAA" 5, c6_row "CCC" 5])]) := rfl
  refine ⟨hok, ?_, rfl⟩
  have h := c6_standings_sorted 0 2024 c6_payload [c6_record]
    [(Json.str "AL East",
      [c6_row "BBB" 9, c6_row "AAA" 5, c6_row "CCC" 5])] rfl rfl rfl hok
  exact (h (Json.str "AL East",
    [c6_row "BBB" 9, c6_row "AAA" 5, c6_row "CCC" 5]) (by simp)).1

end MLB
